import Mathlib

/-!
Verification of the grid-to-image rendering pipeline of
`scripts/process_grib2.py` (weather-radar-app).

The script's numeric data (float32 grids, thresholds, coordinates) is
embedded as exact rationals; a grid cell is either a rational number or
NaN, and every ordered comparison involving NaN is false, as in IEEE
arithmetic.  All thresholds and band bounds are small integers, so every
comparison the script performs is exact and the rational embedding is
faithful.  Stateful/IO parts (the orchestrator `process_grib2` and
`main`) are embedded as total functions over an explicit environment
describing the outcomes of the external collaborators (file system,
GRIB decoder, PNG encoder).
-/

namespace WeatherRadar

/-- An RGBA color with 8-bit channels, stored as naturals. -/
structure RGBA where
  r : ℕ
  g : ℕ
  b : ℕ
  a : ℕ
deriving DecidableEq, Repr

/-- The transparent-black color `(0,0,0,0)`. -/
def transparentRGBA : RGBA := ⟨0, 0, 0, 0⟩

/-- A float32 grid value: an exact rational, or NaN. -/
inductive FVal where
  | num (q : ℚ)
  | nan
deriving DecidableEq, Repr

/-- IEEE-style `v < b`: false whenever `v` is NaN. -/
def FVal.ltQ : FVal → ℚ → Bool
  | .num q, b => decide (q < b)
  | .nan, _ => false

/-- The array `COLOR_THRESHOLDS` from `process_grib2.py` line 49. -/
def COLOR_THRESHOLDS : List ℚ :=
  [-999, 5, 10, 15, 20, 25, 30, 35, 40, 45, 50, 55, 60, 65, 70, 75, 999]

/-- The array `COLOR_VALUES` from `process_grib2.py` lines 50-67 (16 RGBA rows). -/
def COLOR_VALUES : List RGBA :=
  [⟨0, 0, 0, 0⟩,
   ⟨4, 233, 231, 180⟩,
   ⟨1, 159, 244, 180⟩,
   ⟨3, 0, 244, 180⟩,
   ⟨2, 253, 2, 180⟩,
   ⟨1, 197, 1, 180⟩,
   ⟨0, 142, 0, 180⟩,
   ⟨253, 248, 2, 180⟩,
   ⟨229, 188, 0, 180⟩,
   ⟨253, 149, 0, 180⟩,
   ⟨253, 0, 0, 180⟩,
   ⟨212, 0, 0, 180⟩,
   ⟨188, 0, 0, 180⟩,
   ⟨248, 0, 253, 180⟩,
   ⟨152, 84, 198, 180⟩,
   ⟨255, 255, 255, 200⟩]

/-- The slice `COLOR_THRESHOLDS[1:-1]`: the bin edges passed to `np.digitize`. -/
def digitizeBins : List ℚ := (COLOR_THRESHOLDS.drop 1).dropLast

/-- The right-sided `np.searchsorted(bins, v)` on an increasing bin
list, as performed by `np.digitize(v, bins)`: the binary search only
asks `v < bins[mid]`, so a NaN (for which every comparison is false)
lands after the last bin. -/
def searchsorted (v : FVal) : List ℚ → ℕ
  | [] => 0
  | b :: bs => if v.ltQ b then 0 else searchsorted v bs + 1

/-- The interval index `np.digitize(v, COLOR_THRESHOLDS[1:-1])` computes
for one cell (`process_grib2.py` line 76). -/
def digitizeIdx (v : FVal) : ℕ := searchsorted v digitizeBins

/-- The color the vectorized colormap assigns to one cell:
`COLOR_VALUES[np.digitize(v, COLOR_THRESHOLDS[1:-1])]`
(`process_grib2.py` lines 76-84). -/
def colorFor (v : FVal) : RGBA := COLOR_VALUES.getD (digitizeIdx v) transparentRGBA

/-- The function `apply_colormap_vectorized` (`process_grib2.py` lines 70-86): the
index grid is computed cell-independently by `np.digitize` and the four
channels are gathered from `COLOR_VALUES`, so the whole map is the
cell-wise application of `colorFor`. -/
def apply_colormap_vectorized (g : List (List FVal)) : List (List RGBA) :=
  g.map (fun row => row.map colorFor)

/-- Membership of a value in a half-open interval `[lo, hi)` where
`none` stands for an infinite bound; comparisons with NaN are false, so
no interval contains NaN. -/
def inIv (v : FVal) (lo hi : Option ℚ) : Bool :=
  match v with
  | .nan => false
  | .num q =>
      (match lo with
       | none => true
       | some l => decide (l ≤ q)) &&
      (match hi with
       | none => true
       | some h => decide (q < h))

/-- The spec's canonical ColorScale table (§4.1): `v < 5` transparent,
5-unit bands from 5 to 75, `v ≥ 75` opaque white; intervals are
half-open `[low, high)` and contiguous, covering the whole line. -/
def specIntervals : List (Option ℚ × Option ℚ × RGBA) :=
  [(none, some 5, ⟨0, 0, 0, 0⟩),
   (some 5, some 10, ⟨4, 233, 231, 180⟩),
   (some 10, some 15, ⟨1, 159, 244, 180⟩),
   (some 15, some 20, ⟨3, 0, 244, 180⟩),
   (some 20, some 25, ⟨2, 253, 2, 180⟩),
   (some 25, some 30, ⟨1, 197, 1, 180⟩),
   (some 30, some 35, ⟨0, 142, 0, 180⟩),
   (some 35, some 40, ⟨253, 248, 2, 180⟩),
   (some 40, some 45, ⟨229, 188, 0, 180⟩),
   (some 45, some 50, ⟨253, 149, 0, 180⟩),
   (some 50, some 55, ⟨253, 0, 0, 180⟩),
   (some 55, some 60, ⟨212, 0, 0, 180⟩),
   (some 60, some 65, ⟨188, 0, 0, 180⟩),
   (some 65, some 70, ⟨248, 0, 253, 180⟩),
   (some 70, some 75, ⟨152, 84, 198, 180⟩),
   (some 75, none, ⟨255, 255, 255, 200⟩)]

/-- The spec's lookup rule (§4.1): scan the intervals in ascending
order, return the color of the first interval containing the value,
and transparent black when no interval does. -/
def scanLookup (ivs : List (Option ℚ × Option ℚ × RGBA)) (v : FVal) : RGBA :=
  match ivs.find? (fun t => inIv v t.1 t.2.1) with
  | some t => t.2.2
  | none => transparentRGBA

/-- The spec's `colorFor` (§4.1), by the ascending-scan
first-matching-interval rule over the canonical table. -/
def colorFor_specScan (v : FVal) : RGBA := scanLookup specIntervals v

/-- Per-cell reference implementation of the colormap using the spec's
ascending-scan rule. -/
def apply_colormap_percell (g : List (List FVal)) : List (List RGBA) :=
  g.map (fun row => row.map colorFor_specScan)

/-! Characterization of `searchsorted` -/

theorem searchsorted_eq (q : ℚ) :
    ∀ (l : List ℚ) (n : ℕ), n ≤ l.length →
      (∀ i, i < n → l.getD i 0 ≤ q) →
      (n < l.length → q < l.getD n 0) →
      searchsorted (.num q) l = n := by
  intro l
  induction l with
  | nil =>
      intro n hn _ _
      have hn0 : n = 0 := by simpa using hn
      subst hn0
      rfl
  | cons b bs ih =>
      intro n hn hlo hhi
      cases n with
      | zero =>
          have hb : q < b := by
            have := hhi (by simp)
            simpa using this
          simp [searchsorted, FVal.ltQ, hb]
      | succ m =>
          have hb : b ≤ q := by
            have := hlo 0 (Nat.succ_pos m)
            simpa using this
          have hrec : searchsorted (.num q) bs = m := by
            apply ih
            · simpa using hn
            · intro i hi
              have := hlo (i + 1) (by omega)
              simpa using this
            · intro hm
              have := hhi (by simpa using Nat.succ_lt_succ hm)
              simpa using this
          simp [searchsorted, FVal.ltQ, not_lt.mpr hb, hrec]

theorem searchsorted_nan (l : List ℚ) : searchsorted .nan l = l.length := by
  induction l with
  | nil => rfl
  | cons b bs ih => simp [searchsorted, FVal.ltQ, ih]

/-- The bin edges are `5·(i+1)` for `i < 15`. -/
theorem digitizeBins_getD : ∀ i, i < 15 → digitizeBins.getD i 0 = 5 * ((i : ℚ) + 1) := by
  intro i hi
  interval_cases i <;> norm_num [digitizeBins, COLOR_THRESHOLDS]

theorem digitizeBins_length : digitizeBins.length = 15 := by
  norm_num [digitizeBins, COLOR_THRESHOLDS]

/-! The spec's contiguous interval table as cut points plus colors -/

/-- Builds a contiguous half-open interval table from a lower bound, a
list of interior cut points and a color per interval. -/
def mkIntervals : Option ℚ → List ℚ → List RGBA → List (Option ℚ × Option ℚ × RGBA)
  | lo, [], c :: _ => [(lo, none, c)]
  | _, [], [] => []
  | lo, b :: bs, c :: cs => (lo, some b, c) :: mkIntervals (some b) bs cs
  | _, _ :: _, [] => []

theorem specIntervals_eq :
    specIntervals = mkIntervals none digitizeBins COLOR_VALUES := rfl

/-- On a contiguous interval table whose lower bound is already at or
below the value, the ascending scan returns the color at the index the
right-sided binary search over the cut points computes. -/
theorem scanLookup_mkIntervals (q : ℚ) :
    ∀ (cuts : List ℚ) (cols : List RGBA) (lo : Option ℚ),
      (∀ l, lo = some l → l ≤ q) →
      cols.length = cuts.length + 1 →
      scanLookup (mkIntervals lo cuts cols) (.num q)
        = cols.getD (searchsorted (.num q) cuts) transparentRGBA := by
  intro cuts
  induction cuts with
  | nil =>
      intro cols lo hlo hlen
      obtain ⟨c, rfl⟩ := List.length_eq_one.mp (by simpa using hlen)
      have hpred : inIv (.num q) lo none = true := by
        cases lo with
        | none => rfl
        | some l => simp [inIv, hlo l rfl]
      simp [mkIntervals, scanLookup, searchsorted, List.find?_cons_of_pos, hpred]
  | cons b bs ih =>
      intro cols lo hlo hlen
      cases cols with
      | nil => simp at hlen
      | cons c cs =>
          by_cases hq : q < b
          · have hpred : inIv (.num q) lo (some b) = true := by
              cases lo with
              | none => simp [inIv, hq]
              | some l => simp [inIv, hq, hlo l rfl]
            simp [mkIntervals, scanLookup, searchsorted, FVal.ltQ, hq,
              List.find?_cons_of_pos, hpred]
          · have hpred : inIv (.num q) lo (some b) = false := by
              simp [inIv, hq]
            have hrec := ih cs (some b)
              (by intro l hl; cases hl; exact not_lt.mp hq)
              (by simpa using hlen)
            calc scanLookup (mkIntervals lo (b :: bs) (c :: cs)) (.num q)
                = scanLookup (mkIntervals (some b) bs cs) (.num q) := by
                  simp [mkIntervals, scanLookup, List.find?_cons_of_neg, hpred]
              _ = cs.getD (searchsorted (.num q) bs) transparentRGBA := hrec
              _ = (c :: cs).getD (searchsorted (.num q) (b :: bs)) transparentRGBA := by
                  simp [searchsorted, FVal.ltQ, not_lt.mp hq, hq]

/-- For every non-NaN value, the spec's ascending-scan lookup over the
canonical table agrees with the code's digitize-and-gather color. -/
theorem colorFor_specScan_num (q : ℚ) :
    colorFor_specScan (.num q) = colorFor (.num q) := by
  have h := scanLookup_mkIntervals q digitizeBins COLOR_VALUES none
    (by intro l hl; cases hl)
    (by rw [digitizeBins_length]; rfl)
  rw [colorFor_specScan, specIntervals_eq, h]
  rfl

/-- NaN lands after the last digitize bin: index 16 - 1 = 15, white. -/
theorem colorFor_nan_eq : colorFor .nan = ⟨255, 255, 255, 200⟩ := rfl

/-- The ascending scan puts NaN in no interval: transparent black. -/
theorem colorFor_specScan_nan : colorFor_specScan .nan = transparentRGBA := rfl

/-- The code's color table and the spec's interval table list the same
colors, position by position. -/
theorem color_tables_agree : ∀ j, j < 16 →
    COLOR_VALUES.getD j transparentRGBA
      = (specIntervals.getD j (none, none, transparentRGBA)).2.2 := by
  intro j hj
  interval_cases j <;> rfl

theorem digitizeIdx_lt_five {q : ℚ} (h : q < 5) : digitizeIdx (.num q) = 0 := by
  apply searchsorted_eq
  · exact Nat.zero_le _
  · intro i hi; omega
  · intro _
    rw [digitizeBins_getD 0 (by omega)]
    norm_num
    linarith

theorem digitizeIdx_ge_75 {q : ℚ} (h : 75 ≤ q) : digitizeIdx (.num q) = 15 := by
  apply searchsorted_eq
  · rw [digitizeBins_length]
  · intro i hi
    rw [digitizeBins_getD i (by omega)]
    have hik : (i : ℚ) ≤ 14 := by exact_mod_cast (by omega : i ≤ 14)
    linarith
  · intro hlt
    rw [digitizeBins_length] at hlt
    omega

theorem digitizeIdx_band {q : ℚ} {k : ℕ} (hk : k < 14)
    (h1 : 5 * ((k : ℚ) + 1) ≤ q) (h2 : q < 5 * ((k : ℚ) + 2)) :
    digitizeIdx (.num q) = k + 1 := by
  apply searchsorted_eq
  · rw [digitizeBins_length]; omega
  · intro i hi
    rw [digitizeBins_getD i (by omega)]
    have hik : (i : ℚ) ≤ (k : ℚ) := by exact_mod_cast (by omega : i ≤ k)
    linarith
  · intro _
    rw [digitizeBins_getD (k + 1) (by omega)]
    push_cast
    linarith

theorem digitizeIdx_boundary {k : ℕ} (hk : k < 15) :
    digitizeIdx (.num (5 * ((k : ℚ) + 1))) = k + 1 := by
  apply searchsorted_eq
  · rw [digitizeBins_length]; omega
  · intro i hi
    rw [digitizeBins_getD i (by omega)]
    have hik : (i : ℚ) ≤ (k : ℚ) := by exact_mod_cast (by omega : i ≤ k)
    linarith
  · intro hlt
    rw [digitizeBins_length] at hlt
    rw [digitizeBins_getD (k + 1) (by omega)]
    push_cast
    linarith

/-- C1: the color-scale lookup matches the fixed 16-band table
bit-exactly: every value below 5 maps to transparent black `(0,0,0,0)`;
every value at or above 75 maps to opaque white `(255,255,255,200)`;
every value inside the documented 5-unit band `[5(k+1), 5(k+2))` maps to
that band's literal RGBA color from the canonical table; and each
boundary value `5, 10, …, 75` belongs to the upper (higher) band, the
intervals being half-open `[low, high)`. -/
theorem C1_color_scale_table (q : ℚ) :
    (q < 5 → colorFor (.num q) = ⟨0, 0, 0, 0⟩)
  ∧ (75 ≤ q → colorFor (.num q) = ⟨255, 255, 255, 200⟩)
  ∧ (∀ k : ℕ, k < 14 → 5 * ((k : ℚ) + 1) ≤ q → q < 5 * ((k : ℚ) + 2) →
      colorFor (.num q) = (specIntervals.getD (k + 1) (none, none, transparentRGBA)).2.2)
  ∧ (∀ k : ℕ, k < 15 →
      colorFor (.num (5 * ((k : ℚ) + 1)))
        = (specIntervals.getD (k + 1) (none, none, transparentRGBA)).2.2) := by
  refine ⟨?_, ?_, ?_, ?_⟩
  · intro h
    rw [colorFor, digitizeIdx_lt_five h]
    rfl
  · intro h
    rw [colorFor, digitizeIdx_ge_75 h]
    rfl
  · intro k hk h1 h2
    rw [colorFor, digitizeIdx_band hk h1 h2]
    exact color_tables_agree (k + 1) (by omega)
  · intro k hk
    rw [colorFor, digitizeIdx_boundary hk]
    exact color_tables_agree (k + 1) (by omega)

/-- C1 witness: concrete values in each regime of the table. -/
theorem C1_color_scale_table_witness :
    colorFor (.num 2) = ⟨0, 0, 0, 0⟩
  ∧ colorFor (.num 80) = ⟨255, 255, 255, 200⟩
  ∧ colorFor (.num 42) = ⟨229, 188, 0, 180⟩
  ∧ colorFor (.num 10) = ⟨1, 159, 244, 180⟩ := by
  refine ⟨(C1_color_scale_table 2).1 (by norm_num),
          (C1_color_scale_table 80).2.1 (by norm_num), ?_, ?_⟩
  · have h := (C1_color_scale_table 42).2.2.1 7 (by norm_num) (by norm_num) (by norm_num)
    simpa [specIntervals] using h
  · have h := (C1_color_scale_table 10).2.2.2 1 (by norm_num)
    norm_num at h
    simpa [specIntervals] using h

/-! Grids as lists of rows -/

/-- Cell access in a list-of-lists grid: `some` exactly when both
indices are in range. -/
def cellGet (g : List (List α)) (i j : ℕ) : Option α :=
  (g[i]?).bind (fun row => row[j]?)

/-- A cell-wise map commutes with cell access. -/
theorem cellGet_map (f : α → β) (g : List (List α)) (i j : ℕ) :
    cellGet (g.map (fun row => row.map f)) i j = (cellGet g i j).map f := by
  unfold cellGet
  rw [List.getElem?_map]
  cases g[i]? with
  | none => rfl
  | some row => simp

/-- C2 counterexample: on the one-cell grid holding NaN, the vectorized
colormap produces opaque white while the spec's ascending-scan per-cell
reference produces transparent black, so the claimed cell-wise agreement
on every grid fails. -/
theorem C2_vectorized_counterexample :
    apply_colormap_vectorized [[FVal.nan]] = [[⟨255, 255, 255, 200⟩]]
  ∧ apply_colormap_percell [[FVal.nan]] = [[⟨0, 0, 0, 0⟩]]
  ∧ apply_colormap_vectorized [[FVal.nan]] ≠ apply_colormap_percell [[FVal.nan]] := by
  refine ⟨rfl, rfl, ?_⟩
  rw [show apply_colormap_vectorized [[FVal.nan]] = [[⟨255, 255, 255, 200⟩]] from rfl,
    show apply_colormap_percell [[FVal.nan]] = [[⟨0, 0, 0, 0⟩]] from rfl]
  decide

/-- C2 (amended): `applyColormap` is shape-preserving on every grid,
and on every grid free of NaN cells its output is cell-wise equal to
the spec's per-cell ascending-scan reference (the vectorized and the
per-cell implementations agree); NaN cells are the sole divergence. -/
theorem C2_colormap_refines_percell (g : List (List FVal)) :
    ((apply_colormap_vectorized g).length = g.length
      ∧ ∀ i : ℕ, ((apply_colormap_vectorized g)[i]?.getD []).length
          = (g[i]?.getD []).length)
  ∧ ((∀ row ∈ g, ∀ v ∈ row, v ≠ FVal.nan) →
      apply_colormap_vectorized g = apply_colormap_percell g) := by
  refine ⟨⟨by simp [apply_colormap_vectorized], ?_⟩, ?_⟩
  · intro i
    rw [apply_colormap_vectorized, List.getElem?_map]
    cases g[i]? with
    | none => rfl
    | some row => simp
  · intro hnn
    unfold apply_colormap_vectorized apply_colormap_percell
    apply List.map_congr_left
    intro row hrow
    apply List.map_congr_left
    intro v hv
    cases hval : v with
    | num q => exact (colorFor_specScan_num q).symm
    | nan => exact absurd hval (hnn row hrow v hv)

/-- C2 witness: a NaN-free grid on which both implementations coincide. -/
theorem C2_colormap_refines_percell_witness :
    apply_colormap_vectorized [[FVal.num 0, FVal.num 10], [FVal.num (-999), FVal.num 80]]
      = apply_colormap_percell [[FVal.num 0, FVal.num 10], [FVal.num (-999), FVal.num 80]] := by
  apply (C2_colormap_refines_percell _).2
  intro row hrow v hv
  fin_cases hrow <;> fin_cases hv <;> simp

/-- C10: a NaN cell is colored opaque white `(255,255,255,200)` by the
vectorized colormap — the color of the `≥ 75` band — because
`np.digitize` places NaN after the last threshold, whereas the spec's
ascending-scan rule would leave NaN in no interval and render it
transparent. -/
theorem C10_nan_renders_white (g : List (List FVal)) (i j : ℕ)
    (h : cellGet g i j = some FVal.nan) :
    cellGet (apply_colormap_vectorized g) i j = some ⟨255, 255, 255, 200⟩
  ∧ colorFor FVal.nan = ⟨255, 255, 255, 200⟩
  ∧ digitizeIdx FVal.nan = digitizeBins.length
  ∧ colorFor FVal.nan = colorFor (.num 80)
  ∧ colorFor_specScan FVal.nan = ⟨0, 0, 0, 0⟩ := by
  have h80 : colorFor (.num 80) = ⟨255, 255, 255, 200⟩ := by
    rw [colorFor, digitizeIdx_ge_75 (by norm_num : (75 : ℚ) ≤ 80)]
    rfl
  refine ⟨?_, rfl, searchsorted_nan _, h80.symm, rfl⟩
  rw [show apply_colormap_vectorized g = g.map (fun row => row.map colorFor) from rfl,
    cellGet_map, h]
  rfl

/-- C10 witness: the one-cell NaN grid. -/
theorem C10_nan_renders_white_witness :
    cellGet (apply_colormap_vectorized [[FVal.nan]]) 0 0 = some ⟨255, 255, 255, 200⟩ :=
  (C10_nan_renders_white [[FVal.nan]] 0 0 rfl).1

/-- The fill `np.ma.filled(data, -999)` (`process_grib2.py` line 197): every
masked cell is replaced by the sentinel `-999`, other cells keep their
value. -/
def fillMasked (g : List (List (FVal × Bool))) : List (List FVal) :=
  g.map (fun row => row.map (fun p => if p.2 then .num (-999) else p.1))

/-- C8: sentinel `-999` cells — including masked cells, which are
filled with `-999` before colorization — render fully transparent
`(0,0,0,0)`, identically to every other value below 5. -/
theorem C8_sentinel_transparent :
    colorFor (.num (-999)) = ⟨0, 0, 0, 0⟩
  ∧ (∀ q : ℚ, q < 5 → colorFor (.num q) = ⟨0, 0, 0, 0⟩)
  ∧ (∀ g : List (List FVal), ∀ i j, cellGet g i j = some (.num (-999)) →
      cellGet (apply_colormap_vectorized g) i j = some ⟨0, 0, 0, 0⟩)
  ∧ (∀ g : List (List (FVal × Bool)), ∀ i j p, cellGet g i j = some p → p.2 = true →
      cellGet (apply_colormap_vectorized (fillMasked g)) i j = some ⟨0, 0, 0, 0⟩) := by
  have hlow : ∀ q : ℚ, q < 5 → colorFor (.num q) = ⟨0, 0, 0, 0⟩ := by
    intro q h
    rw [colorFor, digitizeIdx_lt_five h]
    rfl
  have h999 : colorFor (.num (-999)) = ⟨0, 0, 0, 0⟩ := hlow _ (by norm_num)
  refine ⟨h999, hlow, ?_, ?_⟩
  · intro g i j h
    rw [show apply_colormap_vectorized g = g.map (fun row => row.map colorFor) from rfl,
      cellGet_map, h]
    simp [h999]
  · intro g i j p h hp
    rw [show apply_colormap_vectorized (fillMasked g)
          = g.map (fun row => row.map
              (fun p => colorFor (if p.2 then .num (-999) else p.1))) from by
        unfold apply_colormap_vectorized fillMasked
        simp [List.map_map, Function.comp]]
    rw [cellGet_map, h]
    simp [hp, h999]

/-- C8 witness: a literal `-999` cell and a masked cell. -/
theorem C8_sentinel_transparent_witness :
    cellGet (apply_colormap_vectorized [[FVal.num (-999)]]) 0 0 = some ⟨0, 0, 0, 0⟩
  ∧ cellGet (apply_colormap_vectorized (fillMasked [[(FVal.num 3, true)]])) 0 0
      = some ⟨0, 0, 0, 0⟩ :=
  ⟨C8_sentinel_transparent.2.2.1 [[FVal.num (-999)]] 0 0 rfl,
   C8_sentinel_transparent.2.2.2 [[(FVal.num 3, true)]] 0 0 (FVal.num 3, true) rfl rfl⟩

/-! Bounds normalization -/

/-- Geographic bounds after normalization. -/
structure GeoBounds where
  latMin : ℚ
  latMax : ℚ
  lonMin : ℚ
  lonMax : ℚ
deriving DecidableEq, Repr

/-- Longitude normalization (`process_grib2.py` lines 163-168): a
longitude strictly greater than 180 has 360 subtracted, once. -/
def normLon (x : ℚ) : ℚ := if x > 180 then x - 360 else x

/-- Bounds normalization (`process_grib2.py` lines 154-179): normalize
both longitudes, swap the longitude pair if out of order, and
independently swap the latitude pair if out of order. -/
def normalizeBounds (latA latB lonA lonB : ℚ) : GeoBounds :=
  let a := normLon lonA
  let b := normLon lonB
  { latMin := if latA > latB then latB else latA
    latMax := if latA > latB then latA else latB
    lonMin := if a > b then b else a
    lonMax := if a > b then a else b }

/-- C3 counterexample: the code subtracts 360 only once, so the input
longitude 600 normalizes to 240 and the claimed invariant that both
output longitudes lie in `[-180, 180]` fails. -/
theorem C3_bounds_range_counterexample :
    (normalizeBounds 0 0 600 0).lonMax = 240
  ∧ ¬ (normalizeBounds 0 0 600 0).lonMax ≤ 180 := by
  norm_num [normalizeBounds, normLon]

/-- C3 (amended): `normalizeBounds` subtracts 360 once from each
longitude above 180 and orders each pair; the documented examples hold;
the output always satisfies `latMin ≤ latMax` and `lonMin ≤ lonMax`;
and the output longitudes lie in `[-180, 180]` whenever each input
longitude lies in `[-180, 540]` — in particular for the 0–360
convention the decoder uses (the unrestricted range invariant fails,
see the counterexample). -/
theorem C3_normalizeBounds_amended (latA latB lonA lonB : ℚ) :
    (normalizeBounds latA latB lonA lonB).latMin ≤ (normalizeBounds latA latB lonA lonB).latMax
  ∧ (normalizeBounds latA latB lonA lonB).lonMin ≤ (normalizeBounds latA latB lonA lonB).lonMax
  ∧ (∀ x : ℚ, 180 < x → normLon x = x - 360)
  ∧ (∀ x : ℚ, x ≤ 180 → normLon x = x)
  ∧ normalizeBounds 0 0 200 210 = ⟨0, 0, -160, -150⟩
  ∧ (normalizeBounds 40 30 100 110).latMin = 30
  ∧ (normalizeBounds 40 30 100 110).latMax = 40
  ∧ (-180 ≤ lonA → lonA ≤ 540 → -180 ≤ lonB → lonB ≤ 540 →
       -180 ≤ (normalizeBounds latA latB lonA lonB).lonMin
     ∧ (normalizeBounds latA latB lonA lonB).lonMin ≤ 180
     ∧ -180 ≤ (normalizeBounds latA latB lonA lonB).lonMax
     ∧ (normalizeBounds latA latB lonA lonB).lonMax ≤ 180) := by
  refine ⟨?_, ?_, ?_, ?_, ?_, ?_, ?_, ?_⟩
  · simp only [normalizeBounds]; split_ifs <;> linarith
  · simp only [normalizeBounds]; split_ifs <;> linarith
  · intro x hx; rw [normLon, if_pos hx]
  · intro x hx; rw [normLon, if_neg (not_lt.mpr hx)]
  · norm_num [normalizeBounds, normLon]
  · norm_num [normalizeBounds, normLon]
  · norm_num [normalizeBounds, normLon]
  · intro hA1 hA2 hB1 hB2
    have hA3 : -180 ≤ normLon lonA := by unfold normLon; split_ifs <;> linarith
    have hA4 : normLon lonA ≤ 180 := by unfold normLon; split_ifs <;> linarith
    have hB3 : -180 ≤ normLon lonB := by unfold normLon; split_ifs <;> linarith
    have hB4 : normLon lonB ≤ 180 := by unfold normLon; split_ifs <;> linarith
    refine ⟨?_, ?_, ?_, ?_⟩ <;> (simp only [normalizeBounds]; split_ifs <;> linarith)

/-- C3 witness: the spec's end-to-end corner coordinates. -/
theorem C3_normalizeBounds_amended_witness :
    (normalizeBounds 20 30 200 210).latMin ≤ (normalizeBounds 20 30 200 210).latMax
  ∧ (normalizeBounds 20 30 200 210).lonMin ≤ (normalizeBounds 20 30 200 210).lonMax
  ∧ -180 ≤ (normalizeBounds 20 30 200 210).lonMin
  ∧ (normalizeBounds 20 30 200 210).lonMax ≤ 180 := by
  have h := C3_normalizeBounds_amended 20 30 200 210
  have hr := h.2.2.2.2.2.2.2 (by norm_num) (by norm_num) (by norm_num) (by norm_num)
  exact ⟨h.1, h.2.1, hr.1, hr.2.2.2⟩

/-! Orientation normalization -/

/-- The two GRIB scanning-direction flags. -/
structure ScanFlags where
  iScansNegatively : Bool
  jScansPositively : Bool
deriving DecidableEq, Repr

/-- Orientation normalization (`process_grib2.py` lines 216-227): a
vertical flip (`np.flipud`) iff `jScansPositively`, then a horizontal
flip (`np.fliplr`) iff `iScansNegatively`, in that fixed order. -/
def normalizeOrientation (f : ScanFlags) (g : List (List α)) : List (List α) :=
  let g1 := if f.jScansPositively then g.reverse else g
  if f.iScansNegatively then g1.map List.reverse else g1

theorem normalizeOrientation_involutive (f : ScanFlags) (g : List (List α)) :
    normalizeOrientation f (normalizeOrientation f g) = g := by
  obtain ⟨i, j⟩ := f
  cases i <;> cases j <;>
    simp [normalizeOrientation, List.map_reverse, List.map_map, Function.comp,
      List.reverse_reverse]

/-- C4: `normalizeOrientation` applies a vertical flip iff
`jScansPositively`, then a horizontal flip iff `iScansNegatively`, in
this fixed order; applying it twice with the same flags returns the
original grid, and with both flags false the grid is unchanged. -/
theorem C4_orientation_involution {α : Type} :
    (∀ (f : ScanFlags) (g : List (List α)),
       normalizeOrientation f (normalizeOrientation f g) = g)
  ∧ (∀ g : List (List α), normalizeOrientation ⟨false, false⟩ g = g)
  ∧ (∀ (f : ScanFlags) (g : List (List α)),
       normalizeOrientation f g =
         (if f.iScansNegatively
            then (if f.jScansPositively then g.reverse else g).map List.reverse
            else (if f.jScansPositively then g.reverse else g))) :=
  ⟨fun f g => normalizeOrientation_involutive f g, fun _ => rfl, fun _ _ => rfl⟩

/-- C9 counterexample: with the vertical flip active, applying the
transformation a second time restores the original grid, which differs
from the once-flipped grid, so the claimed idempotence fails. -/
theorem C9_idempotence_counterexample :
    normalizeOrientation ⟨false, true⟩
        (normalizeOrientation ⟨false, true⟩ [[(0 : ℕ)], [1]])
      ≠ normalizeOrientation ⟨false, true⟩ [[(0 : ℕ)], [1]] := by
  decide

/-- C9 (amended): applying `normalizeOrientation` a second time with
the same flags undoes the first application and yields the original
grid (each flip is an involution); the second application yields the
same result as the first only when the transformation is the identity,
as with both flags false. -/
theorem C9_second_application_restores {α : Type} :
    (∀ (f : ScanFlags) (g : List (List α)),
       normalizeOrientation f (normalizeOrientation f g) = g)
  ∧ (∀ g : List (List α),
       normalizeOrientation ⟨false, false⟩ (normalizeOrientation ⟨false, false⟩ g)
         = normalizeOrientation ⟨false, false⟩ g) :=
  ⟨fun f g => normalizeOrientation_involutive f g, fun _ => rfl⟩

/-! Downsampling -/

/-- The slice `l[::f]`: every `f`-th element starting at index 0. -/
def strideList (f : ℕ) : List α → List α
  | [] => []
  | a :: rest => a :: strideList f (rest.drop (f - 1))
termination_by l => l.length
decreasing_by simp [List.length_drop]; omega

theorem strideList_nil (f : ℕ) : strideList f ([] : List α) = [] := by
  rw [strideList]

theorem strideList_cons (f : ℕ) (a : α) (rest : List α) :
    strideList f (a :: rest) = a :: strideList f (rest.drop (f - 1)) := by
  rw [strideList]

/-- The slice `l[::f]` has `⌈length/f⌉` elements. -/
theorem strideList_length {f : ℕ} (hf : 1 ≤ f) :
    ∀ l : List α, (strideList f l).length = (l.length + f - 1) / f := by
  have key : ∀ (n : ℕ) (l : List α), l.length ≤ n →
      (strideList f l).length = (l.length + f - 1) / f := by
    intro n
    induction n with
    | zero =>
        intro l hl
        have hnil : l = [] := List.eq_nil_of_length_eq_zero (by omega)
        subst hnil
        simp [strideList_nil, Nat.div_eq_of_lt (by omega : f - 1 < f)]
    | succ n ih =>
        intro l hl
        cases l with
        | nil => simp [strideList_nil, Nat.div_eq_of_lt (by omega : f - 1 < f)]
        | cons a rest =>
            simp only [List.length_cons] at hl
            rw [strideList_cons]
            simp only [List.length_cons]
            rw [ih (rest.drop (f - 1)) (by simp only [List.length_drop]; omega)]
            simp only [List.length_drop]
            rcases le_or_lt (f - 1) rest.length with h | h
            · have h1 : rest.length - (f - 1) + f - 1 = rest.length := by omega
              have h2 : rest.length + 1 + f - 1 = rest.length + f := by omega
              rw [h1, h2, Nat.add_div_right _ (by omega)]
            · have h1 : rest.length - (f - 1) + f - 1 = f - 1 := by omega
              have h2 : rest.length + 1 + f - 1 = rest.length + f := by omega
              rw [h1, h2, Nat.div_eq_of_lt (by omega),
                Nat.add_div_right _ (by omega), Nat.div_eq_of_lt (by omega)]
  intro l
  exact key l.length l le_rfl

/-- Element `i` of the slice `l[::f]` is element `i·f` of `l`. -/
theorem strideList_getElem? {f : ℕ} (hf : 1 ≤ f) :
    ∀ (l : List α) (i : ℕ), (strideList f l)[i]? = l[i * f]? := by
  have key : ∀ (n : ℕ) (l : List α), l.length ≤ n → ∀ i : ℕ,
      (strideList f l)[i]? = l[i * f]? := by
    intro n
    induction n with
    | zero =>
        intro l hl i
        have hnil : l = [] := List.eq_nil_of_length_eq_zero (by omega)
        subst hnil
        simp [strideList_nil]
    | succ n ih =>
        intro l hl i
        cases l with
        | nil => simp [strideList_nil]
        | cons a rest =>
            simp only [List.length_cons] at hl
            rw [strideList_cons]
            cases i with
            | zero => simp
            | succ m =>
                rw [List.getElem?_cons_succ,
                  ih (rest.drop (f - 1)) (by simp only [List.length_drop]; omega) m,
                  List.getElem?_drop]
                have hmul : (m + 1) * f = (f - 1 + m * f) + 1 := by
                  rw [Nat.succ_mul]
                  omega
                rw [hmul, List.getElem?_cons_succ]
  intro l
  exact key l.length l le_rfl

/-- Downsampling (`process_grib2.py` lines 201-206): the strided slice
`data[::f, ::f]`, applied only when the factor exceeds 1. -/
def downsample (factor : ℕ) (g : List (List α)) : List (List α) :=
  if 1 < factor then (strideList factor g).map (strideList factor) else g

/-- C5: `downsample` with factor 1 is the identity; for every factor
`f ≥ 1` the output has `⌈h/f⌉` rows, every row of a `w`-rectangular
input becomes a `⌈w/f⌉`-cell row, and output cell `(i,j)` equals input
cell `(i·f, j·f)` — strided subsampling starting at index 0. -/
theorem C5_downsample_strided {α : Type} :
    (∀ g : List (List α), downsample 1 g = g)
  ∧ (∀ (f : ℕ) (g : List (List α)), 1 ≤ f →
       (downsample f g).length = (g.length + f - 1) / f)
  ∧ (∀ (f : ℕ) (g : List (List α)) (w : ℕ), 1 ≤ f → (∀ r ∈ g, r.length = w) →
       ∀ r ∈ downsample f g, r.length = (w + f - 1) / f)
  ∧ (∀ (f : ℕ) (g : List (List α)) (i j : ℕ), 1 ≤ f →
       cellGet (downsample f g) i j = cellGet g (i * f) (j * f)) := by
  refine ⟨?_, ?_, ?_, ?_⟩
  · intro g
    simp [downsample]
  · intro f g hf
    rcases eq_or_lt_of_le hf with heq | hf2
    · rw [← heq]
      simp [downsample]
    · rw [downsample, if_pos hf2, List.length_map, strideList_length hf]
  · intro f g w hf hrect r hr
    rcases eq_or_lt_of_le hf with heq | hf2
    · rw [← heq] at hr ⊢
      simp only [downsample, if_neg (by omega : ¬ 1 < 1)] at hr
      rw [hrect r hr]
      omega
    · rw [downsample, if_pos hf2] at hr
      obtain ⟨r0, hr0, rfl⟩ := List.mem_map.mp hr
      obtain ⟨i, hi⟩ := List.mem_iff_getElem?.mp hr0
      rw [strideList_getElem? hf] at hi
      have hmem : r0 ∈ g := List.getElem?_mem hi
      rw [strideList_length hf, hrect r0 hmem]
  · intro f g i j hf
    rcases eq_or_lt_of_le hf with heq | hf2
    · rw [← heq]
      simp [downsample]
    · rw [downsample, if_pos hf2]
      unfold cellGet
      rw [List.getElem?_map, strideList_getElem? hf]
      cases hrow : g[i * f]? with
      | none => rfl
      | some row => simp [strideList_getElem? hf]

/-- C5 witness: a 3×3 grid downsampled by 2. -/
theorem C5_downsample_strided_witness :
    downsample 1 [[(0 : ℕ), 1], [2, 3]] = [[0, 1], [2, 3]]
  ∧ (downsample 2 [[(0 : ℕ), 1, 2], [3, 4, 5], [6, 7, 8]]).length = 2
  ∧ cellGet (downsample 2 [[(0 : ℕ), 1, 2], [3, 4, 5], [6, 7, 8]]) 1 1 = some 8 := by
  refine ⟨C5_downsample_strided.1 _, ?_, ?_⟩
  · have h := C5_downsample_strided.2.1 2
      [[(0 : ℕ), 1, 2], [3, 4, 5], [6, 7, 8]] (by norm_num)
    simpa using h
  · have h := C5_downsample_strided.2.2.2 2
      [[(0 : ℕ), 1, 2], [3, 4, 5], [6, 7, 8]] 1 1 (by norm_num)
    rw [h]
    rfl

/-! Resolution metadata -/

/-- Python's `round` on an exact value: nearest integer, ties to even. -/
def roundHalfEven (q : ℚ) : ℤ :=
  if q - ⌊q⌋ < 1 / 2 then ⌊q⌋
  else if 1 / 2 < q - ⌊q⌋ then ⌊q⌋ + 1
  else if ⌊q⌋ % 2 = 0 then ⌊q⌋ else ⌊q⌋ + 1

/-- Python's `round(x, 2)` on an exact value: round to the nearest
multiple of 1/100, ties to even. -/
def round2 (q : ℚ) : ℚ := (roundHalfEven (q * 100) : ℚ) / 100

/-- The resolution formula (`process_grib2.py` lines 249-250):
`(|lat_max - lat_min| * 111) / height * downsample_factor`, with
`height` the post-downsample grid height. -/
def resolution_km (lat_min lat_max : ℚ) (height : ℕ) (factor : ℕ) : ℚ :=
  |lat_max - lat_min| * 111 / (height : ℚ) * (factor : ℚ)

/-- The resolution written into the result record
(`round(resolution_km, 2)`, `process_grib2.py` line 261). -/
def reportedResolution (lat_min lat_max : ℚ) (height factor : ℕ) : ℚ :=
  round2 (resolution_km lat_min lat_max height factor)

theorem roundHalfEven_intCast (k : ℤ) : roundHalfEven (k : ℚ) = k := by
  unfold roundHalfEven
  rw [Int.floor_intCast]
  norm_num

theorem round2_of_cent (k : ℤ) : round2 ((k : ℚ) / 100) = (k : ℚ) / 100 := by
  unfold round2
  rw [show ((k : ℚ) / 100 * 100) = (k : ℚ) by ring, roundHalfEven_intCast]

/-- C6 counterexample: with latitude range 1, height 7 and factor 1 the
formula gives 111/7 = 15.857142…, but the record reports the rounded
value 15.86, so the reported resolution does not equal the formula. -/
theorem C6_resolution_rounding_counterexample :
    resolution_km 0 1 7 1 = 111 / 7
  ∧ reportedResolution 0 1 7 1 = 793 / 50
  ∧ reportedResolution 0 1 7 1 ≠ resolution_km 0 1 7 1 := by
  have h1 : resolution_km 0 1 7 1 = 111 / 7 := by
    unfold resolution_km
    norm_num
  have hfloor : ⌊((111 : ℚ) / 7 * 100)⌋ = 1585 := by
    rw [Int.floor_eq_iff]
    constructor <;> norm_num
  have h2 : reportedResolution 0 1 7 1 = 793 / 50 := by
    unfold reportedResolution round2 roundHalfEven
    rw [h1, hfloor]
    norm_num
  refine ⟨h1, h2, ?_⟩
  rw [h1, h2]
  norm_num

/-- C6 (amended): the resolution reported in the result record is the
formula `(|latMax - latMin| * 111 / postDownsampleHeight) *
downsampleFactor` rounded to two decimal places (ties to even, as
Python's `round`); it equals the formula exactly whenever the formula
value is an integer multiple of 1/100 — in particular in the §8
scenario (latitude range 10, height 4, factor 1) the reported value is
exactly 277.5. -/
theorem C6_resolution_amended :
    (∀ (lat_min lat_max : ℚ) (h f : ℕ),
       reportedResolution lat_min lat_max h f
         = round2 (resolution_km lat_min lat_max h f))
  ∧ (∀ (lat_min lat_max : ℚ) (h f : ℕ) (k : ℤ),
       resolution_km lat_min lat_max h f = (k : ℚ) / 100 →
       reportedResolution lat_min lat_max h f = resolution_km lat_min lat_max h f)
  ∧ resolution_km 20 30 4 1 = 277.5
  ∧ reportedResolution 20 30 4 1 = 277.5 := by
  have hform : resolution_km 20 30 4 1 = 277.5 := by
    unfold resolution_km
    norm_num
  have hcent : ∀ (lat_min lat_max : ℚ) (h f : ℕ) (k : ℤ),
      resolution_km lat_min lat_max h f = (k : ℚ) / 100 →
      reportedResolution lat_min lat_max h f = resolution_km lat_min lat_max h f := by
    intro lat_min lat_max h f k hk
    unfold reportedResolution
    rw [hk, round2_of_cent]
  refine ⟨fun _ _ _ _ => rfl, hcent, hform, ?_⟩
  rw [hcent 20 30 4 1 27750 (by rw [hform]; norm_num), hform]

/-- C6 witness: a run whose formula value is an exact multiple of 1/100,
so the reported resolution equals the formula. -/
theorem C6_resolution_amended_witness :
    reportedResolution 0 37 1 1 = resolution_km 0 37 1 1 := by
  apply C6_resolution_amended.2.1 0 37 1 1 410700
  unfold resolution_km
  norm_num

/-! The orchestrator and its error boundary -/

/-- The first GRIB message as the orchestrator consumes it: timestamp,
optional scanning flags (reading them can fail, in which case the code
defaults to west-to-east, south-to-north), raw corner coordinates and
the masked value grid. -/
structure DecodedMsg where
  validTimestamp : String
  scanFlags : Option ScanFlags
  latFirst : ℚ
  latLast : ℚ
  lonFirst : ℚ
  lonLast : ℚ
  values : List (List (FVal × Bool))

/-- Outcomes of the external collaborators for one run: whether the
input path exists, the decoder's outcome, and the encoder's outcome. -/
structure Env where
  inputPath : String
  inputExists : Bool
  decode : Except String DecodedMsg
  encodeErr : Option String

/-- The result record `process_grib2` returns: a success record with
timestamp, normalized bounds, grid dimensions and resolution, or a
failure record with an error message. -/
inductive ProcResult where
  | ok (timestamp : String) (bounds : GeoBounds) (width height : ℕ) (resolution : ℚ)
  | err (msg : String)
deriving DecidableEq, Repr

def ProcResult.isOk : ProcResult → Bool
  | .ok _ _ _ _ _ => true
  | .err _ => false

/-- The orchestrator `process_grib2` (`process_grib2.py` lines
89-282): the missing-file check precedes decoding; any decoder or
encoder failure is caught at the function's boundary and turned into a
failure record; otherwise the pipeline runs mask fill, downsample,
colormap and orientation normalization and builds the success record
from the normalized bounds and the post-downsample shape. -/
def process_grib2 (env : Env) (downsample_factor : ℕ) : ProcResult :=
  if !env.inputExists then
    .err ("Input file not found: " ++ env.inputPath)
  else
    match env.decode with
    | .error e => .err e
    | .ok msg =>
        let b := normalizeBounds msg.latFirst msg.latLast msg.lonFirst msg.lonLast
        let flags := msg.scanFlags.getD ⟨false, true⟩
        let data := downsample downsample_factor (fillMasked msg.values)
        let rgba := normalizeOrientation flags (apply_colormap_vectorized data)
        match env.encodeErr with
        | some e => .err e
        | none =>
            .ok msg.validTimestamp b (data[0]?.getD []).length
              (max rgba.length data.length)
              (reportedResolution b.latMin b.latMax data.length downsample_factor)

/-- A character escaped for a JSON string literal, as `json.dumps`
escapes it (quote and backslash; other path characters are plain). -/
def escChar (c : Char) : List Char :=
  if c = '\\' then ['\\', '\\'] else if c = '"' then ['\\', '"'] else [c]

/-- String escaping for a JSON string literal. -/
def jsonEscape (s : String) : String := ⟨s.data.foldr (fun c acc => escChar c ++ acc) []⟩

/-- Models `json.dumps` applied to the failure record
`dict(success=False, error=msg)`: the exact line `main` prints to the
standard output stream on failure. -/
def renderErrorJson (m : String) : String :=
  "\x7b\"success\": false, \"error\": \"" ++ jsonEscape m ++ "\"\x7d"

/-- The entry point `main` (`process_grib2.py` lines 285-312): wrong
argument count yields a usage failure record and exit code 1; otherwise
the orchestrator runs with downsample factor 3, its record is printed,
and the exit code is 0 on success and 1 on failure. -/
def main_model (argv : List String) (env : Env) : ProcResult × ℕ :=
  if argv.length ≠ 3 then
    (.err "Usage: python process_grib2.py <input_file> <output_file>", 1)
  else
    match process_grib2 env 3 with
    | .ok t b w h r => (.ok t b w h r, 0)
    | .err m => (.err m, 1)

/-- Substring containment. -/
def ContainsStr (s t : String) : Prop := ∃ a b : String, s = a ++ t ++ b

theorem escFold_append (l1 l2 : List Char) :
    (l1 ++ l2).foldr (fun c acc => escChar c ++ acc) []
      = l1.foldr (fun c acc => escChar c ++ acc) []
        ++ l2.foldr (fun c acc => escChar c ++ acc) [] := by
  induction l1 with
  | nil => simp
  | cons c rest ih => simp [ih]

theorem jsonEscape_append (s t : String) :
    jsonEscape (s ++ t) = jsonEscape s ++ jsonEscape t := by
  cases s with
  | mk ds =>
      cases t with
      | mk dt => exact congrArg String.mk (escFold_append ds dt)

theorem escFold_plain (l : List Char) (h : ∀ c ∈ l, c ≠ '\\' ∧ c ≠ '"') :
    l.foldr (fun c acc => escChar c ++ acc) [] = l := by
  induction l with
  | nil => rfl
  | cons c rest ih =>
      simp only [List.foldr_cons]
      rw [ih (fun d hd => h d (List.mem_cons_of_mem c hd))]
      have hc := h c (List.mem_cons_self c rest)
      simp [escChar, hc.1, hc.2]

theorem jsonEscape_plain (s : String) (h : ∀ c ∈ s.data, c ≠ '\\' ∧ c ≠ '"') :
    jsonEscape s = s := by
  cases s with
  | mk ds => exact congrArg String.mk (escFold_plain ds h)

theorem renderErrorJson_split (m : String) :
    renderErrorJson m
      = "\x7b" ++ "\"success\": false"
        ++ (", \"error\": \"" ++ jsonEscape m ++ "\"\x7d") := by
  unfold renderErrorJson
  simp only [← String.append_assoc]
  rw [show ("\x7b\"success\": false, \"error\": \"" : String)
        = ("\x7b" ++ "\"success\": false") ++ ", \"error\": \"" from rfl]

/-- C7: `process_grib2` never raises past its boundary — every run
yields a result record; the exit status of `main` is 0 exactly on
success and 1 on every failure, including a bad argument count; and a
missing input file yields exit code 1 together with a failure record
whose JSON line contains `"success": false` and the input path. -/
theorem C7_orchestrator_boundary (argv : List String) (env : Env) :
    ((main_model argv env).2 = 0 ∨ (main_model argv env).2 = 1)
  ∧ (argv.length = 3 →
       ((main_model argv env).2 = 0 ↔ (process_grib2 env 3).isOk = true))
  ∧ (argv.length ≠ 3 → (main_model argv env).2 = 1)
  ∧ ((process_grib2 env 3).isOk = true ∨ ∃ m, process_grib2 env 3 = .err m)
  ∧ (env.inputExists = false →
       process_grib2 env 3 = .err ("Input file not found: " ++ env.inputPath))
  ∧ (env.inputExists = false → argv.length = 3 →
       (main_model argv env).2 = 1
     ∧ ContainsStr (renderErrorJson ("Input file not found: " ++ env.inputPath))
         "\"success\": false"
     ∧ ((∀ c ∈ env.inputPath.data, c ≠ '\\' ∧ c ≠ '"') →
         ContainsStr (renderErrorJson ("Input file not found: " ++ env.inputPath))
           env.inputPath)) := by
  have hmissing : env.inputExists = false →
      process_grib2 env 3 = .err ("Input file not found: " ++ env.inputPath) := by
    intro h
    unfold process_grib2
    rw [h]
    rfl
  refine ⟨?_, ?_, ?_, ?_, hmissing, ?_⟩
  · unfold main_model
    by_cases h : argv.length ≠ 3
    · rw [if_pos h]
      right
      rfl
    · rw [if_neg h]
      cases process_grib2 env 3 with
      | ok t b w hh r => left; rfl
      | err m => right; rfl
  · intro h
    unfold main_model
    rw [if_neg (by omega)]
    cases process_grib2 env 3 with
    | ok t b w hh r => simp [ProcResult.isOk]
    | err m => simp [ProcResult.isOk]
  · intro h
    unfold main_model
    rw [if_pos h]
  · cases hp : process_grib2 env 3 with
    | ok t b w hh r => left; rfl
    | err m => right; exact ⟨m, rfl⟩
  · intro hex hlen
    refine ⟨?_, ?_, ?_⟩
    · unfold main_model
      rw [if_neg (by omega), hmissing hex]
    · exact ⟨"\x7b", ", \"error\": \"" ++ jsonEscape ("Input file not found: " ++ env.inputPath)
        ++ "\"\x7d", renderErrorJson_split _⟩
    · intro hplain
      refine ⟨"\x7b\"success\": false, \"error\": \"Input file not found: ",
        "\"\x7d", ?_⟩
      unfold renderErrorJson
      rw [jsonEscape_append,
        show jsonEscape "Input file not found: " = "Input file not found: " from by decide,
        jsonEscape_plain env.inputPath hplain]
      simp only [← String.append_assoc]
      rw [show ("\x7b\"success\": false, \"error\": \"Input file not found: " : String)
            = "\x7b\"success\": false, \"error\": \"" ++ "Input file not found: " from rfl]

/-- C7 witness: a missing input file with a plain path. -/
theorem C7_orchestrator_boundary_witness :
    (main_model ["python3", "/in.grib2", "/out.png"]
        ⟨"/in.grib2", false, .error "pygrib", none⟩).2 = 1
  ∧ process_grib2 ⟨"/in.grib2", false, .error "pygrib", none⟩ 3
      = .err "Input file not found: /in.grib2"
  ∧ ContainsStr (renderErrorJson "Input file not found: /in.grib2") "\"success\": false"
  ∧ ContainsStr (renderErrorJson "Input file not found: /in.grib2") "/in.grib2" := by
  have h := C7_orchestrator_boundary ["python3", "/in.grib2", "/out.png"]
    ⟨"/in.grib2", false, .error "pygrib", none⟩
  have hstr : ("Input file not found: " ++ "/in.grib2" : String)
      = "Input file not found: /in.grib2" := rfl
  have h6 := h.2.2.2.2.2 rfl rfl
  refine ⟨h6.1, ?_, ?_, ?_⟩
  · have h5 := h.2.2.2.2.1 rfl
    rw [hstr] at h5
    exact h5
  · have := h6.2.1
    rw [hstr] at this
    exact this
  · have := h6.2.2 (by decide)
    rw [hstr] at this
    exact this

end WeatherRadar
